import Mathlib

/-!
Shallow embedding of the Tetris game-logic core (`src/tetris.py`).

Conventions of the embedding:
* Python `int` becomes `Int` (all arithmetic in the source is exact integer
  arithmetic); row/column indices produced by `range` scans are `Nat`.
* The grid is a list of rows, each row a list of `Option Color` cells
  (`none` = empty), exactly as `self.grid` is a list of lists with `None`
  for empty cells.
* Mutation becomes explicit state passing: each method of `TetrisGame`
  becomes a function `Game → Game` (returning the updated state).
* `random.choice` in `get_random_piece` is the only source of
  nondeterminism; operations that draw a random piece take the drawn
  `Kind` as an explicit argument instead.
* `current_piece` is `Optional` in the source only transiently during
  construction (it is assigned before the constructor returns and never
  reset to `None`); the embedding makes it a plain field.
-/

/-- RGB color triple, as the 3-tuples in the source's `COLORS` table. -/
abbrev Color := Nat × Nat × Nat

def CYAN : Color := (0, 255, 255)

def YELLOW : Color := (255, 255, 0)

def PURPLE : Color := (128, 0, 128)

def GREEN : Color := (0, 255, 0)

def RED : Color := (255, 0, 0)

def BLUE : Color := (0, 0, 255)

def ORANGE : Color := (255, 165, 0)

/-- `GRID_WIDTH = 10`. -/
def GRID_WIDTH : Nat := 10

/-- `GRID_HEIGHT = 20`. -/
def GRID_HEIGHT : Nat := 20

/-- The seven tetromino kinds (the keys of `SHAPES`). -/
inductive Kind where
  | I | O | T | S | Z | J | L
deriving DecidableEq, Repr

/-- The `SHAPES` table: occupancy matrices (Python `1`/`0` become
`true`/`false`; the source tests cells by truthiness). -/
def SHAPES : Kind → List (List Bool)
  | .I => [[true, true, true, true]]
  | .O => [[true, true], [true, true]]
  | .T => [[false, true, false], [true, true, true]]
  | .S => [[false, true, true], [true, true, false]]
  | .Z => [[true, true, false], [false, true, true]]
  | .J => [[true, false, false], [true, true, true]]
  | .L => [[false, false, true], [true, true, true]]

/-- The `COLORS` table. -/
def COLORS : Kind → Color
  | .I => CYAN
  | .O => YELLOW
  | .T => PURPLE
  | .S => GREEN
  | .Z => RED
  | .J => BLUE
  | .L => ORANGE

/-- A `Tetromino` instance: kind, current occupancy matrix, and origin.
The `color` attribute of the source is set once from `COLORS[shape_type]`
and never mutated, so it is modelled as the derived function
`Tetromino.color` below. -/
structure Tetromino where
  type : Kind
  shape : List (List Bool)
  x : Int
  y : Int
deriving DecidableEq, Repr

def Tetromino.color (p : Tetromino) : Color := COLORS p.type

/-- `Tetromino.__init__`: fresh piece of a kind at spawn position
`x = GRID_WIDTH // 2 - len(shape[0]) // 2`, `y = 0`. -/
def Tetromino.fresh (k : Kind) : Tetromino :=
  { type := k
    shape := SHAPES k
    x := (GRID_WIDTH : Int) / 2 - (((SHAPES k).headD []).length : Int) / 2
    y := 0 }

/-- The matrix transform of `rotate_clockwise`:
`[list(row) for row in zip(*self.shape[::-1])]`.  For the rectangular
matrices the game manipulates, `zip(*m)` is `List.transpose m`. -/
def rotateCW (m : List (List Bool)) : List (List Bool) :=
  m.reverse.transpose

/-- `Tetromino.rotate_clockwise` (mutates only the matrix). -/
def Tetromino.rotate_clockwise (p : Tetromino) : Tetromino :=
  { p with shape := rotateCW p.shape }

/-- `Tetromino.get_blocks`: absolute coordinates of the occupied cells,
in row-major scan order. -/
def Tetromino.get_blocks (p : Tetromino) : List (Int × Int) :=
  p.shape.enum.flatMap fun r =>
    r.2.enum.filterMap fun c =>
      if c.2 then some (p.x + (c.1 : Int), p.y + (r.1 : Int)) else none

/-- The board: a list of `GRID_HEIGHT` rows of `GRID_WIDTH` cells. -/
abbrev Grid := List (List (Option Color))

def emptyRow : List (Option Color) := List.replicate GRID_WIDTH none

def emptyGrid : Grid := List.replicate GRID_HEIGHT emptyRow

/-- `self.grid[new_y][new_x] is not None` (both indices are known to be
in range at every use site, after the bounds checks). -/
def cellOccupied (grid : Grid) (x y : Int) : Bool :=
  ((grid.getD y.toNat []).getD x.toNat none).isSome

/-- `TetrisGame.is_valid_position(piece, offset_x, offset_y)`. -/
def is_valid_position (grid : Grid) (p : Tetromino) (dx dy : Int) : Bool :=
  p.get_blocks.all fun c =>
    let nx := c.1 + dx
    let ny := c.2 + dy
    if nx < 0 ∨ (GRID_WIDTH : Int) ≤ nx ∨ (GRID_HEIGHT : Int) ≤ ny then false
    else if 0 ≤ ny ∧ cellOccupied grid nx ny then false
    else true

/-- The four states of the state machine (`PlayingState`, `PausedState`,
`LineClearingState`, `GameOverState`). -/
inductive GState where
  | Playing | Paused | LineClearing | GameOver
deriving DecidableEq, Repr

/-- The mutable fields of `TetrisGame` that the game logic reads or
writes (rendering-only fields such as fonts and the screen are omitted;
`show_ghost` is kept because gameplay input toggles it). -/
structure Game where
  grid : Grid
  current_piece : Tetromino
  next_piece : Tetromino
  hold_piece : Option Tetromino
  can_hold : Bool
  score : Int
  level : Int
  lines_cleared : Int
  game_over : Bool
  fall_time : Int
  fall_speed : Int
  clearing_lines : List Nat
  clear_animation_time : Int
  clear_animation_duration : Int
  show_ghost : Bool
  state : GState
deriving DecidableEq, Repr

/-- `TetrisGame.spawn_new_piece`, with the random kind drawn by
`get_random_piece` passed explicitly as `k`. -/
def spawn_new_piece (k : Kind) (g : Game) : Game :=
  let g := { g with
    current_piece := g.next_piece
    next_piece := Tetromino.fresh k
    can_hold := true }
  if ¬ is_valid_position g.grid g.current_piece 0 0 then
    { g with game_over := true, state := GState.GameOver }
  else g

/-- `TetrisGame.move_piece(dx, dy)`: returns the Python `bool` result
together with the updated state. -/
def move_piece (dx dy : Int) (g : Game) : Bool × Game :=
  if is_valid_position g.grid g.current_piece dx dy then
    (true, { g with current_piece :=
      { g.current_piece with x := g.current_piece.x + dx, y := g.current_piece.y + dy } })
  else (false, g)

/-- The wall-kick offset list tried by `rotate_piece`. -/
def kicks : List (Int × Int) := [(0, 0), (-1, 0), (1, 0), (0, -1), (-1, -1), (1, -1)]

/-- The `for dx, dy in kicks` loop of `rotate_piece`: the first offset at
which the rotated piece is valid is applied and the loop returns. -/
def tryKicks (grid : Grid) (rot : Tetromino) : List (Int × Int) → Option Tetromino
  | [] => none
  | k :: ks =>
    if is_valid_position grid rot k.1 k.2 then
      some { rot with x := rot.x + k.1, y := rot.y + k.2 }
    else tryKicks grid rot ks

/-- `TetrisGame.rotate_piece` acting on the current piece: rotate
clockwise, try the kick offsets in order, and restore the saved
pre-rotation matrix (leaving origin untouched) if all fail. -/
def rotate_piece (grid : Grid) (p : Tetromino) : Tetromino :=
  match tryKicks grid p.rotate_clockwise kicks with
  | some q => q
  | none => p

/-- The write loop of `lock_piece`: copy every occupied cell with
`y >= 0` into the grid (cells above the board are discarded). -/
def place_piece (grid : Grid) (p : Tetromino) : Grid :=
  p.get_blocks.foldl
    (fun gr c =>
      if 0 ≤ c.2 then
        gr.set c.2.toNat ((gr.getD c.2.toNat []).set c.1.toNat (some p.color))
      else gr)
    grid

/-- The detection scan of `clear_lines`: indices (in increasing order) of
rows whose every column is non-empty. -/
def detect_full (grid : Grid) : List Nat :=
  (List.range GRID_HEIGHT).filter fun y =>
    (List.range GRID_WIDTH).all fun x => ((grid.getD y []).getD x none).isSome

/-- The `line_scores` dict `{1: 100, 2: 300, 3: 500, 4: 800}` with
`.get(num_lines, 0)`. -/
def line_scores : Nat → Int
  | 1 => 100
  | 2 => 300
  | 3 => 500
  | 4 => 800
  | _ => 0

/-- `TetrisGame.clear_lines`. -/
def clear_lines (g : Game) : Game :=
  let lines := detect_full g.grid
  if lines.isEmpty then g
  else
    let num_lines := lines.length
    let g := { g with
      clearing_lines := lines
      clear_animation_time := 0
      lines_cleared := g.lines_cleared + (num_lines : Int)
      score := g.score + line_scores num_lines * g.level }
    let new_level := g.lines_cleared / 10 + 1
    let g :=
      if new_level > g.level then
        { g with level := new_level, fall_speed := max 100 (1000 - (new_level - 1) * 100) }
      else g
    { g with state := GState.LineClearing }

/-- The row-removal loop of `finish_clearing_animation`:
`for y in reversed(clearing_lines): del grid[y]; grid.insert(0, empty)`.
Note that the insertion at index 0 happens inside the loop, so it shifts
the indices the later iterations delete at. -/
def remove_rows (grid : Grid) (lines : List Nat) : Grid :=
  lines.reverse.foldl (fun gr y => emptyRow :: gr.eraseIdx y) grid

/-- Modelled from the spec (§4.2 `removeRows`): "removes each specified
row and inserts an equal number of empty rows at index 0, preserving
relative order of remaining rows."  Used only to compare the source's
`remove_rows` against the specified behaviour. -/
def removeRows_specModel (grid : Grid) (lines : List Nat) : Grid :=
  List.replicate lines.length emptyRow ++
    (grid.enum.filter (fun r => !(lines.contains r.1))).map Prod.snd

/-- `TetrisGame.finish_clearing_animation` (the spawn it performs draws a
random kind `k`). -/
def finish_clearing_animation (k : Kind) (g : Game) : Game :=
  if g.clearing_lines.isEmpty then g
  else
    let g := { g with
      grid := remove_rows g.grid g.clearing_lines
      clearing_lines := [] }
    spawn_new_piece k g

/-- `TetrisGame.lock_piece` (the spawn, if reached, draws kind `k`). -/
def lock_piece (k : Kind) (g : Game) : Game :=
  let g := { g with grid := place_piece g.grid g.current_piece }
  let g := clear_lines g
  if g.clearing_lines.isEmpty then spawn_new_piece k g else g

/-- `TetrisGame.hold_current_piece` (the spawn in the empty-slot branch
draws kind `k`). -/
def hold_current_piece (k : Kind) (g : Game) : Game :=
  if ¬ g.can_hold then g
  else
    match g.hold_piece with
    | none =>
      let g := { g with hold_piece := some (Tetromino.fresh g.current_piece.type) }
      let g := spawn_new_piece k g
      { g with can_hold := false }
    | some hp =>
      { g with
        current_piece := Tetromino.fresh hp.type
        hold_piece := some (Tetromino.fresh g.current_piece.type)
        can_hold := false }

/-- The downward-move loop of `hard_drop` (and `get_ghost_piece`):
repeat `move_piece(0, 1)` while it succeeds, counting the steps.  The
loop is bounded by fuel; `hard_drop` below passes enough fuel that it is
never exhausted for a piece with a non-empty occupancy matrix (validity
bounds every occupied cell's row below `GRID_HEIGHT`, so at most
`GRID_HEIGHT - y` further steps can succeed). -/
def drop_steps (fuel : Nat) (g : Game) : Nat × Game :=
  match fuel with
  | 0 => (0, g)
  | fuel + 1 =>
    let r := move_piece 0 1 g
    if r.1 then
      let s := drop_steps fuel r.2
      (s.1 + 1, s.2)
    else (0, g)

/-- `TetrisGame.hard_drop` (the lock's spawn, if reached, draws kind
`k`). -/
def hard_drop (k : Kind) (g : Game) : Game :=
  let fuel := ((GRID_HEIGHT : Int) + 1 - g.current_piece.y).toNat + 1
  let s := drop_steps fuel g
  let g := { s.2 with score := s.2.score + (s.1 : Int) * 2 }
  lock_piece k g

/-- `PlayingState.update`. -/
def playing_update (dt : Int) (k : Kind) (g : Game) : Game :=
  let g := { g with fall_time := g.fall_time + dt }
  if g.fall_time ≥ g.fall_speed then
    let g := { g with fall_time := 0 }
    let r := move_piece 0 1 g
    if r.1 then r.2 else lock_piece k r.2
  else g

/-- `LineClearingState.update`: advance the animation timer; when the
duration is reached, finish the animation and unconditionally set the
state to `PlayingState`. -/
def lineClearing_update (dt : Int) (k : Kind) (g : Game) : Game :=
  let g := { g with clear_animation_time := g.clear_animation_time + dt }
  if g.clear_animation_time ≥ g.clear_animation_duration then
    let g := finish_clearing_animation k g
    { g with state := GState.Playing }
  else g

/-- `TetrisGame.update`: an early return if `game_over` is set, then the
state-pattern dispatch (`PausedState.update` and `GameOverState.update`
do nothing). -/
def update (dt : Int) (k : Kind) (g : Game) : Game :=
  if g.game_over then g
  else
    match g.state with
    | GState.Playing => playing_update dt k g
    | GState.Paused => g
    | GState.LineClearing => lineClearing_update dt k g
    | GState.GameOver => g

/-- `TetrisGame.reset_game` (the fresh next piece is of kind `k1`; the
spawn at the end draws kind `k2`). -/
def reset_game (k1 k2 : Kind) (g : Game) : Game :=
  let g := { g with
    grid := emptyGrid
    score := 0
    level := 1
    lines_cleared := 0
    game_over := false
    fall_speed := 1000
    clearing_lines := []
    clear_animation_time := 0
    next_piece := Tetromino.fresh k1
    hold_piece := none
    can_hold := true
    state := GState.Playing }
  spawn_new_piece k2 g

/-- The gameplay keys handled by the `handle_input` methods. -/
inductive Key where
  | left | right | down | up | space | c | g | p | r
deriving DecidableEq, Repr

/-- `TetrisGame.handle_input` on a KEYDOWN event: dispatch to the current
state's `handle_input` (`LineClearingState` ignores all input;
`PausedState` honours only `p`; `GameOverState` honours only `r`).
Random kinds drawn by any spawn reached are `k1` (and `k2` for the
second draw inside a restart). -/
def handle_key (key : Key) (k1 k2 : Kind) (g : Game) : Game :=
  match g.state with
  | GState.Playing =>
    match key with
    | Key.left => (move_piece (-1) 0 g).2
    | Key.right => (move_piece 1 0 g).2
    | Key.down =>
      let r := move_piece 0 1 g
      if r.1 then { r.2 with score := r.2.score + 1 } else r.2
    | Key.up => { g with current_piece := rotate_piece g.grid g.current_piece }
    | Key.space => hard_drop k1 g
    | Key.c => hold_current_piece k1 g
    | Key.g => { g with show_ghost := !g.show_ghost }
    | Key.p => { g with state := GState.Paused }
    | Key.r => g
  | GState.Paused =>
    match key with
    | Key.p => { g with state := GState.Playing }
    | _ => g
  | GState.LineClearing => g
  | GState.GameOver =>
    match key with
    | Key.r => reset_game k1 k2 g
    | _ => g

/-- `TetrisGame.__init__` (game-logic fields): empty grid, zeroed
counters, a first next piece of kind `k1`, then `spawn_new_piece`
drawing kind `k2`. -/
def initGame (k1 k2 : Kind) : Game :=
  spawn_new_piece k2
    { grid := emptyGrid
      current_piece := Tetromino.fresh k1
      next_piece := Tetromino.fresh k1
      hold_piece := none
      can_hold := true
      score := 0
      level := 1
      lines_cleared := 0
      game_over := false
      fall_time := 0
      fall_speed := 1000
      clearing_lines := []
      clear_animation_time := 0
      clear_animation_duration := 500
      show_ghost := true
      state := GState.Playing }

/-- The invariant of claim C9: the set of clearing row indices is
non-empty exactly when the state machine is in the line-clearing
state. -/
def clearingInv (g : Game) : Prop :=
  g.clearing_lines ≠ [] ↔ g.state = GState.LineClearing

instance (g : Game) : Decidable (clearingInv g) := by
  unfold clearingInv; infer_instance

/-- A row with a single occupied cell (column 0), used as a
distinguishable non-full row in concrete boards. -/
def r17row : List (Option Color) := some CYAN :: List.replicate 9 none

/-- A completely full row. -/
def fullRowD : List (Option Color) := List.replicate 10 (some CYAN)

/-- Concrete 20-row board: rows 0–16 empty, row 17 has one occupied
cell, rows 18 and 19 are full. -/
def demoGridC1 : Grid := List.replicate 17 emptyRow ++ [r17row, fullRowD, fullRowD]

/-- Concrete 20-row board: row 0 occupied at columns 4 and 5 (the spawn
columns of the O piece), rows 1–18 empty, row 19 full. -/
def gridC2 : Grid :=
  (List.replicate 4 none ++ [some CYAN, some CYAN] ++ List.replicate 4 none) ::
    (List.replicate 18 emptyRow ++ [fullRowD])

/-- Concrete session mid line-clearing animation on `gridC2` with
clearing row 19 and an O piece queued as next: reachable by locking a
piece that completes the bottom row while the stack at columns 4–5
reaches row 0. -/
def demoGameC2 : Game :=
  { grid := gridC2
    current_piece := Tetromino.fresh Kind.O
    next_piece := Tetromino.fresh Kind.O
    hold_piece := none
    can_hold := true
    score := 100
    level := 1
    lines_cleared := 1
    game_over := false
    fall_time := 0
    fall_speed := 1000
    clearing_lines := [19]
    clear_animation_time := 0
    clear_animation_duration := 500
    show_ghost := true
    state := GState.LineClearing }

/-- A session in the Playing state whose grid is entirely occupied and
whose hold slot is filled: used to exercise the hold-swap path when the
re-instantiated current piece overlaps occupied cells. -/
def demoGameC10 : Game :=
  { grid := List.replicate GRID_HEIGHT fullRowD
    current_piece := Tetromino.fresh Kind.T
    next_piece := Tetromino.fresh Kind.S
    hold_piece := some (Tetromino.fresh Kind.I)
    can_hold := true
    score := 0
    level := 1
    lines_cleared := 0
    game_over := false
    fall_time := 0
    fall_speed := 1000
    clearing_lines := []
    clear_animation_time := 0
    clear_animation_duration := 500
    show_ghost := true
    state := GState.Playing }

/-!  Theorems. -/

/-- C1 (code_bug evaluation): on a board whose rows 18 and 19 are full
(the detection scan returns exactly `[18, 19]`), the row-removal loop of
`finish_clearing_animation` does NOT remove each specified row: because
the empty row is inserted at index 0 inside the loop, the second
iteration's deletion index is shifted, the full row originally at index
18 survives (it ends up at index 19), and the innocent row originally at
index 17 is deleted instead.  The board height is unchanged, as the
claim states, but the specified rows are not the ones removed, so the
result differs from the spec's `removeRows`. -/
theorem remove_rows_bug :
    detect_full demoGridC1 = [18, 19] ∧
    remove_rows demoGridC1 [18, 19] ≠ removeRows_specModel demoGridC1 [18, 19] ∧
    (remove_rows demoGridC1 [18, 19]).getD 19 [] = fullRowD ∧
    fullRowD.all Option.isSome = true ∧
    r17row ∉ remove_rows demoGridC1 [18, 19] ∧
    r17row ∈ removeRows_specModel demoGridC1 [18, 19] ∧
    (remove_rows demoGridC1 [18, 19]).length = GRID_HEIGHT := by
  decide

/-- C2 (code_bug evaluation): from the reachable session `demoGameC2`
(line-clearing animation over a board whose row 0 blocks the O spawn
cells), letting the animation complete via `update` performs the
spawn, which fails and sets the game-over flag — but
`LineClearingState.update` then unconditionally overwrites the state
with `PlayingState`, so the game-over flag is set while the state
machine is NOT in the GameOver state. -/
theorem gameover_state_clobbered :
    demoGameC2.game_over = false ∧
    demoGameC2.state = GState.LineClearing ∧
    (update 500 Kind.I demoGameC2).game_over = true ∧
    is_valid_position (update 500 Kind.I demoGameC2).grid
      (update 500 Kind.I demoGameC2).current_piece 0 0 = false ∧
    (update 500 Kind.I demoGameC2).state = GState.Playing := by
  decide

/-- Iterating the piece-level rotation only iterates the matrix
transform; the kind and origin are untouched. -/
theorem rotate_clockwise_iterate (m : Nat) (q : Tetromino) :
    Tetromino.rotate_clockwise^[m] q = { q with shape := rotateCW^[m] q.shape } := by
  induction m generalizing q with
  | zero => rfl
  | succ m ih =>
    rw [Function.iterate_succ_apply, Function.iterate_succ_apply, ih]
    rfl

/-- Four clockwise rotations are the identity on each spawn matrix. -/
theorem rotateCW_four_base (k : Kind) : rotateCW^[4] (SHAPES k) = SHAPES k := by
  cases k <;> decide

/-- C4: for every piece of each of the 7 kinds, in any reachable
orientation (i.e. whose matrix is some number of clockwise rotations of
its kind's spawn matrix), four consecutive clockwise rotations restore
the occupancy matrix — indeed the whole piece, since rotation leaves
kind and origin unchanged. -/
theorem rotate_four (p : Tetromino) (k : Kind) (n : Nat)
    (h : p.shape = rotateCW^[n] (SHAPES k)) :
    Tetromino.rotate_clockwise^[4] p = p := by
  have hcomm : rotateCW^[4] (rotateCW^[n] (SHAPES k)) = rotateCW^[n] (SHAPES k) := by
    rw [← Function.iterate_add_apply, Nat.add_comm, Function.iterate_add_apply,
      rotateCW_four_base]
  rw [rotate_clockwise_iterate, h, hcomm, ← h]

/-- Witness for C4 at the T piece in its spawn orientation. -/
theorem rotate_four_witness :
    Tetromino.rotate_clockwise^[4] (Tetromino.fresh Kind.T) = Tetromino.fresh Kind.T :=
  rotate_four (Tetromino.fresh Kind.T) Kind.T 0 rfl

/-- C3: the placement-validity check returns invalid exactly when some
occupied cell of the piece, offset by `(dx, dy)`, lands at an x outside
`[0, GRID_WIDTH)`, or at a y at or below the bottom, or at a
non-negative y whose grid cell is already occupied.  Cells with negative
resulting y are exempt from the occupancy check (the last disjunct
requires `0 ≤ y`) but remain subject to the horizontal-bounds check. -/
theorem is_valid_position_iff (grid : Grid) (p : Tetromino) (dx dy : Int) :
    is_valid_position grid p dx dy = false ↔
      ∃ c ∈ p.get_blocks,
        c.1 + dx < 0 ∨ (GRID_WIDTH : Int) ≤ c.1 + dx ∨ (GRID_HEIGHT : Int) ≤ c.2 + dy ∨
          (0 ≤ c.2 + dy ∧ cellOccupied grid (c.1 + dx) (c.2 + dy) = true) := by
  unfold is_valid_position
  rw [List.all_eq_false]
  constructor
  · rintro ⟨c, hc, hfalse⟩
    refine ⟨c, hc, ?_⟩
    by_cases h1 : c.1 + dx < 0 ∨ (GRID_WIDTH : Int) ≤ c.1 + dx ∨ (GRID_HEIGHT : Int) ≤ c.2 + dy
    · tauto
    · by_cases h2 : 0 ≤ c.2 + dy ∧ cellOccupied grid (c.1 + dx) (c.2 + dy)
      · tauto
      · simp only [h1, h2, if_false] at hfalse
        simp at hfalse
  · rintro ⟨c, hc, hcond⟩
    refine ⟨c, hc, ?_⟩
    by_cases h1 : c.1 + dx < 0 ∨ (GRID_WIDTH : Int) ≤ c.1 + dx ∨ (GRID_HEIGHT : Int) ≤ c.2 + dy
    · simp only [h1, if_true]
      simp
    · by_cases h2 : 0 ≤ c.2 + dy ∧ cellOccupied grid (c.1 + dx) (c.2 + dy)
      · simp only [h1, h2, if_false, if_true]
        simp
      · exfalso
        rcases hcond with h | h | h | h
        · exact h1 (Or.inl h)
        · exact h1 (Or.inr (Or.inl h))
        · exact h1 (Or.inr (Or.inr h))
        · exact h2 ⟨h.1, h.2⟩

/-- If every offset in the list is invalid for the rotated piece, the
kick loop falls through. -/
theorem tryKicks_eq_none (grid : Grid) (rot : Tetromino) (ks : List (Int × Int))
    (h : ∀ k ∈ ks, is_valid_position grid rot k.1 k.2 = false) :
    tryKicks grid rot ks = none := by
  induction ks with
  | nil => rfl
  | cons a t ih =>
    have ha : is_valid_position grid rot a.1 a.2 = false := h a (by simp)
    simp only [tryKicks, ha]
    simp only [Bool.false_eq_true, if_false]
    exact ih fun k hk => h k (List.mem_cons_of_mem a hk)

/-- The kick loop applies the first offset in the list at which the
rotated piece is valid. -/
theorem tryKicks_eq_first (grid : Grid) (rot : Tetromino) (ks : List (Int × Int))
    (i : Nat) (hi : i < ks.length)
    (hv : is_valid_position grid rot (ks.get ⟨i, hi⟩).1 (ks.get ⟨i, hi⟩).2 = true)
    (hp : ∀ j, (hj : j < i) →
      is_valid_position grid rot (ks.get ⟨j, Nat.lt_trans hj hi⟩).1
        (ks.get ⟨j, Nat.lt_trans hj hi⟩).2 = false) :
    tryKicks grid rot ks =
      some { rot with x := rot.x + (ks.get ⟨i, hi⟩).1, y := rot.y + (ks.get ⟨i, hi⟩).2 } := by
  induction ks generalizing i with
  | nil => exact absurd hi (Nat.not_lt_zero i)
  | cons a t ih =>
    cases i with
    | zero =>
      simp only [List.get] at hv ⊢
      simp only [tryKicks, hv, if_true]
    | succ i =>
      have ha : is_valid_position grid rot a.1 a.2 = false := hp 0 (Nat.succ_pos i)
      simp only [tryKicks, ha]
      simp only [Bool.false_eq_true, if_false]
      have hi' : i < t.length := Nat.lt_of_succ_lt_succ hi
      have hv' : is_valid_position grid rot (t.get ⟨i, hi'⟩).1 (t.get ⟨i, hi'⟩).2 = true := hv
      exact ih i hi' hv' fun j hj => hp (j + 1) (Nat.succ_lt_succ hj)

/-- C5: `rotate_piece` applies the clockwise rotation and then tries the
offsets `(0,0), (-1,0), (1,0), (0,-1), (-1,-1), (1,-1)` in exactly that
order: if the i-th offset is the first at which the rotated piece is
valid, that offset is added to the piece's origin; if none is valid, the
piece is returned with its pre-rotation matrix and origin unchanged. -/
theorem rotate_piece_spec (grid : Grid) (p : Tetromino) :
    ((∀ k ∈ kicks, is_valid_position grid p.rotate_clockwise k.1 k.2 = false) →
      rotate_piece grid p = p) ∧
    (∀ i, (hi : i < kicks.length) →
      is_valid_position grid p.rotate_clockwise (kicks.get ⟨i, hi⟩).1
        (kicks.get ⟨i, hi⟩).2 = true →
      (∀ j, (hj : j < i) →
        is_valid_position grid p.rotate_clockwise (kicks.get ⟨j, Nat.lt_trans hj hi⟩).1
          (kicks.get ⟨j, Nat.lt_trans hj hi⟩).2 = false) →
      rotate_piece grid p =
        { p.rotate_clockwise with
            x := p.rotate_clockwise.x + (kicks.get ⟨i, hi⟩).1
            y := p.rotate_clockwise.y + (kicks.get ⟨i, hi⟩).2 }) := by
  constructor
  · intro h
    unfold rotate_piece
    rw [tryKicks_eq_none grid p.rotate_clockwise kicks h]
  · intro i hi hv hp
    unfold rotate_piece
    rw [tryKicks_eq_first grid p.rotate_clockwise kicks i hi hv hp]

/-- Witness for C5: rotating a fresh T piece on the empty board succeeds
at the first offset `(0, 0)`. -/
theorem rotate_piece_spec_witness :
    rotate_piece emptyGrid (Tetromino.fresh Kind.T) =
      { (Tetromino.fresh Kind.T).rotate_clockwise with
          x := (Tetromino.fresh Kind.T).rotate_clockwise.x + 0
          y := (Tetromino.fresh Kind.T).rotate_clockwise.y + 0 } :=
  (rotate_piece_spec emptyGrid (Tetromino.fresh Kind.T)).2 0 (by decide) (by decide)
    (fun j hj => absurd hj (Nat.not_lt_zero j))

/-- The score written by `clear_lines`: the base value for the number of
detected full rows, multiplied by the level at the time of the clear
(the level update happens after the score update and does not touch the
score).  When no full row is detected the table yields 0 and the score
is unchanged. -/
theorem clear_lines_score_eq (g : Game) :
    (clear_lines g).score = g.score + line_scores (detect_full g.grid).length * g.level := by
  unfold clear_lines
  by_cases hE : (detect_full g.grid).isEmpty = true
  · have hnil : detect_full g.grid = [] := by simpa using hE
    rw [if_pos hE, hnil]
    simp [line_scores]
  · rw [if_neg hE]
    dsimp only
    split <;> rfl

/-- C6: a lock event that completes `n` full rows increases the score by
exactly `line_scores n * L` where `line_scores` maps 1,2,3,4 to
100,300,500,800 and everything else to 0; in particular a 1-line clear
at level `L` adds exactly `100 * L`, and the same 1-line clear at level
2 yields a strictly larger score delta than at level 1. -/
theorem clear_lines_score_spec :
    (∀ g : Game, 1 ≤ g.level →
      (clear_lines g).score = g.score + line_scores (detect_full g.grid).length * g.level) ∧
    (∀ g : Game, 1 ≤ g.level → (detect_full g.grid).length = 1 →
      (clear_lines g).score = g.score + 100 * g.level) ∧
    (∀ g1 g2 : Game, g2.grid = g1.grid → g1.level = 1 → g2.level = 2 →
      (detect_full g1.grid).length = 1 →
      (clear_lines g1).score - g1.score < (clear_lines g2).score - g2.score) := by
  refine ⟨fun g _ => clear_lines_score_eq g, fun g _ h1 => ?_, fun g1 g2 hg h1 h2 hn => ?_⟩
  · rw [clear_lines_score_eq, h1]
    rfl
  · rw [clear_lines_score_eq, clear_lines_score_eq, hg, hn, h1, h2]
    simp [line_scores]

/-- Witness for C6 on the concrete board `gridC2` (exactly one full row):
a 1-line clear at level 1 adds 100, and the same clear at level 2 adds
strictly more. -/
theorem clear_lines_score_spec_witness :
    (clear_lines demoGameC2).score = demoGameC2.score + 100 * demoGameC2.level ∧
    (clear_lines demoGameC2).score - demoGameC2.score <
      (clear_lines { demoGameC2 with level := 2 }).score -
        { demoGameC2 with level := 2 }.score :=
  ⟨clear_lines_score_spec.2.1 demoGameC2 (by decide) (by decide),
   clear_lines_score_spec.2.2 demoGameC2 { demoGameC2 with level := 2 } rfl (by decide)
     (by decide) (by decide)⟩

/-- C7: `clear_lines` maintains `level = lines_cleared div 10 + 1`
(so a total of 9 cleared lines means level 1 and a total of 10 means
level 2) and `fall_speed = max(100, 1000 - (level - 1) * 100)`, which
never drops below the 100 ms floor. -/
theorem level_fall_speed_spec (g : Game)
    (h0 : 0 ≤ g.lines_cleared)
    (hlv : g.level = g.lines_cleared / 10 + 1)
    (hfs : g.fall_speed = max 100 (1000 - (g.level - 1) * 100)) :
    (clear_lines g).level = (clear_lines g).lines_cleared / 10 + 1 ∧
    (clear_lines g).fall_speed = max 100 (1000 - ((clear_lines g).level - 1) * 100) ∧
    100 ≤ (clear_lines g).fall_speed ∧
    ((clear_lines g).lines_cleared = 9 → (clear_lines g).level = 1) ∧
    ((clear_lines g).lines_cleared = 10 → (clear_lines g).level = 2) := by
  have hfloor : ∀ L : Int, (100 : Int) ≤ max 100 (1000 - (L - 1) * 100) := fun L =>
    le_max_left _ _
  unfold clear_lines
  by_cases hE : (detect_full g.grid).isEmpty = true
  · rw [if_pos hE]
    refine ⟨hlv, hfs, by rw [hfs]; exact hfloor g.level, ?_, ?_⟩ <;> intro h9 <;> omega
  · rw [if_neg hE]
    dsimp only
    split
    · refine ⟨rfl, rfl, hfloor _, fun h9 => ?_, fun h9 => ?_⟩
      · have h9a : g.lines_cleared + ((detect_full g.grid).length : Int) = 9 := h9
        show (g.lines_cleared + ((detect_full g.grid).length : Int)) / 10 + 1 = 1
        omega
      · have h9a : g.lines_cleared + ((detect_full g.grid).length : Int) = 10 := h9
        show (g.lines_cleared + ((detect_full g.grid).length : Int)) / 10 + 1 = 2
        omega
    · rename_i hle
      have hle2 : ¬ g.lines_cleared / 10 + 1 <
          (g.lines_cleared + ((detect_full g.grid).length : Int)) / 10 + 1 := by
        rw [← hlv]; exact hle
      have hlv2 : g.level =
          (g.lines_cleared + ((detect_full g.grid).length : Int)) / 10 + 1 := by omega
      refine ⟨hlv2, ?_, by rw [hfs]; exact hfloor g.level, fun h9 => ?_, fun h9 => ?_⟩
      · rw [hfs]
      · have h9a : g.lines_cleared + ((detect_full g.grid).length : Int) = 9 := h9
        show g.level = 1
        omega
      · have h9a : g.lines_cleared + ((detect_full g.grid).length : Int) = 10 := h9
        show g.level = 2
        omega

/-- Witness for C7 at the freshly initialised session (level 1, no lines
cleared, fall interval 1000 ms). -/
theorem level_fall_speed_spec_witness :
    (clear_lines (initGame Kind.I Kind.O)).level =
        (clear_lines (initGame Kind.I Kind.O)).lines_cleared / 10 + 1 ∧
    (clear_lines (initGame Kind.I Kind.O)).fall_speed =
        max 100 (1000 - ((clear_lines (initGame Kind.I Kind.O)).level - 1) * 100) ∧
    100 ≤ (clear_lines (initGame Kind.I Kind.O)).fall_speed ∧
    ((clear_lines (initGame Kind.I Kind.O)).lines_cleared = 9 →
        (clear_lines (initGame Kind.I Kind.O)).level = 1) ∧
    ((clear_lines (initGame Kind.I Kind.O)).lines_cleared = 10 →
        (clear_lines (initGame Kind.I Kind.O)).level = 2) :=
  level_fall_speed_spec (initGame Kind.I Kind.O) (by decide) (by decide) (by decide)

/-- Field equations of `spawn_new_piece`: it promotes the next piece to
current, queues a fresh piece of the drawn kind, re-enables holding, and
leaves hold slot, grid, clearing rows and score alone. -/
theorem spawn_new_piece_fields (k : Kind) (g : Game) :
    (spawn_new_piece k g).current_piece = g.next_piece ∧
    (spawn_new_piece k g).next_piece = Tetromino.fresh k ∧
    (spawn_new_piece k g).can_hold = true ∧
    (spawn_new_piece k g).hold_piece = g.hold_piece ∧
    (spawn_new_piece k g).grid = g.grid ∧
    (spawn_new_piece k g).clearing_lines = g.clearing_lines ∧
    (spawn_new_piece k g).score = g.score := by
  unfold spawn_new_piece
  dsimp only
  split <;> exact ⟨rfl, rfl, rfl, rfl, rfl, rfl, rfl⟩

/-- With holding enabled and an empty hold slot, `hold_current_piece`
stores a fresh piece of the current kind, spawns, and disables
holding. -/
theorem hold_empty_slot_eq (k : Kind) (g : Game)
    (hch : g.can_hold = true) (hhp : g.hold_piece = none) :
    hold_current_piece k g =
      { spawn_new_piece k { g with hold_piece := some (Tetromino.fresh g.current_piece.type) }
          with can_hold := false } := by
  unfold hold_current_piece
  rw [hch, hhp]
  simp

/-- With holding enabled and a held piece, `hold_current_piece` swaps
the kinds and disables holding, touching nothing else. -/
theorem hold_swap_eq (k : Kind) (g : Game) (hp : Tetromino)
    (hch : g.can_hold = true) (hhp : g.hold_piece = some hp) :
    hold_current_piece k g =
      { g with
        current_piece := Tetromino.fresh hp.type
        hold_piece := some (Tetromino.fresh g.current_piece.type)
        can_hold := false } := by
  unfold hold_current_piece
  rw [hch, hhp]
  simp

/-- C8: `hold_current_piece` is a no-op when holding is disabled; with
holding enabled and an empty hold slot it stores a fresh piece of the
current kind and immediately spawns (the queued next piece becomes
current and a fresh piece of the drawn kind becomes next); with a piece
already held it swaps kinds, re-instantiating both at spawn position and
orientation; in both non-no-op cases holding ends up disabled, and any
spawn re-enables it. -/
theorem hold_piece_spec (g : Game) (k : Kind) :
    (g.can_hold = false → hold_current_piece k g = g) ∧
    (g.can_hold = true → g.hold_piece = none →
      (hold_current_piece k g).hold_piece = some (Tetromino.fresh g.current_piece.type) ∧
      (hold_current_piece k g).current_piece = g.next_piece ∧
      (hold_current_piece k g).next_piece = Tetromino.fresh k ∧
      (hold_current_piece k g).can_hold = false) ∧
    (∀ hp : Tetromino, g.can_hold = true → g.hold_piece = some hp →
      (hold_current_piece k g).current_piece = Tetromino.fresh hp.type ∧
      (hold_current_piece k g).hold_piece = some (Tetromino.fresh g.current_piece.type) ∧
      (hold_current_piece k g).can_hold = false) ∧
    (spawn_new_piece k g).can_hold = true := by
  refine ⟨fun hch => ?_, fun hch hhp => ?_, fun hp hch hhp => ?_,
    (spawn_new_piece_fields k g).2.2.1⟩
  · unfold hold_current_piece
    rw [hch]
    simp
  · rw [hold_empty_slot_eq k g hch hhp]
    exact ⟨(spawn_new_piece_fields k _).2.2.2.1, (spawn_new_piece_fields k _).1,
      (spawn_new_piece_fields k _).2.1, rfl⟩
  · rw [hold_swap_eq k g hp hch hhp]
    exact ⟨rfl, rfl, rfl⟩

/-- Witness for C8: from the freshly initialised session (holding
enabled, empty hold slot), holding stores the current kind and spawns;
from `demoGameC10` (a piece already held), holding swaps the kinds. -/
theorem hold_piece_spec_witness :
    ((hold_current_piece Kind.T (initGame Kind.I Kind.O)).hold_piece =
        some (Tetromino.fresh (initGame Kind.I Kind.O).current_piece.type) ∧
      (hold_current_piece Kind.T (initGame Kind.I Kind.O)).current_piece =
        (initGame Kind.I Kind.O).next_piece ∧
      (hold_current_piece Kind.T (initGame Kind.I Kind.O)).next_piece =
        Tetromino.fresh Kind.T ∧
      (hold_current_piece Kind.T (initGame Kind.I Kind.O)).can_hold = false) ∧
    ((hold_current_piece Kind.T demoGameC10).current_piece =
        Tetromino.fresh (Tetromino.fresh Kind.I).type ∧
      (hold_current_piece Kind.T demoGameC10).hold_piece =
        some (Tetromino.fresh demoGameC10.current_piece.type) ∧
      (hold_current_piece Kind.T demoGameC10).can_hold = false) :=
  ⟨(hold_piece_spec (initGame Kind.I Kind.O) Kind.T).2.1 (by decide) (by decide),
   (hold_piece_spec demoGameC10 Kind.T).2.2.1 (Tetromino.fresh Kind.I) (by decide) (by decide)⟩

/-- C10: when holding is enabled and a piece is already held, the hold
operation replaces the current piece by a fresh piece of the held kind
at spawn position without any placement-validity check: the state (so
in particular whether the machine is in GameOver) and the game-over
flag are unchanged, as are board, score, level and lines-cleared. -/
theorem hold_swap_no_check (g : Game) (k : Kind) (hp : Tetromino)
    (hch : g.can_hold = true) (hhp : g.hold_piece = some hp) :
    (hold_current_piece k g).state = g.state ∧
    (hold_current_piece k g).game_over = g.game_over ∧
    (hold_current_piece k g).grid = g.grid ∧
    (hold_current_piece k g).score = g.score ∧
    (hold_current_piece k g).level = g.level ∧
    (hold_current_piece k g).lines_cleared = g.lines_cleared ∧
    (hold_current_piece k g).current_piece = Tetromino.fresh hp.type ∧
    (hold_current_piece k g).hold_piece = some (Tetromino.fresh g.current_piece.type) := by
  rw [hold_swap_eq k g hp hch hhp]
  exact ⟨rfl, rfl, rfl, rfl, rfl, rfl, rfl, rfl⟩

/-- Witness for C10 on `demoGameC10`, whose grid is fully occupied: the
swapped-in current piece overlaps occupied cells (its placement at the
spawn position is invalid), yet the state stays `Playing` — no GameOver
transition — and board and counters are untouched. -/
theorem hold_swap_no_check_witness :
    is_valid_position demoGameC10.grid
      (hold_current_piece Kind.T demoGameC10).current_piece 0 0 = false ∧
    (hold_current_piece Kind.T demoGameC10).state = demoGameC10.state ∧
    (hold_current_piece Kind.T demoGameC10).game_over = demoGameC10.game_over ∧
    (hold_current_piece Kind.T demoGameC10).grid = demoGameC10.grid ∧
    (hold_current_piece Kind.T demoGameC10).score = demoGameC10.score :=
  ⟨by decide,
   (hold_swap_no_check demoGameC10 Kind.T (Tetromino.fresh Kind.I) (by decide) (by decide)).1,
   (hold_swap_no_check demoGameC10 Kind.T (Tetromino.fresh Kind.I) (by decide) (by decide)).2.1,
   (hold_swap_no_check demoGameC10 Kind.T (Tetromino.fresh Kind.I) (by decide) (by decide)).2.2.1,
   (hold_swap_no_check demoGameC10 Kind.T (Tetromino.fresh Kind.I) (by decide) (by decide)).2.2.2.1⟩

/-- The C9 invariant only reads `clearing_lines` and `state`, so it
transports along operations that keep both. -/
theorem clearingInv_of_eq {g1 g2 : Game} (hc : g2.clearing_lines = g1.clearing_lines)
    (hs : g2.state = g1.state) (h : clearingInv g1) : clearingInv g2 := by
  unfold clearingInv at h ⊢
  rw [hc, hs]
  exact h

/-- Variant of `clearingInv_of_eq` taking the invariant first (so the
source state is fixed before the field equations are elaborated). -/
theorem clearingInv_transport {g1 : Game} (h : clearingInv g1) {g2 : Game}
    (hc : g2.clearing_lines = g1.clearing_lines) (hs : g2.state = g1.state) :
    clearingInv g2 :=
  clearingInv_of_eq hc hs h

/-- A spawn either leaves the state unchanged or moves it to GameOver. -/
theorem spawn_new_piece_state (k : Kind) (g : Game) :
    (spawn_new_piece k g).state = g.state ∨ (spawn_new_piece k g).state = GState.GameOver := by
  unfold spawn_new_piece
  dsimp only
  split
  · exact Or.inr rfl
  · exact Or.inl rfl

/-- Spawning from a state with no clearing rows preserves the C9
invariant (a failed spawn moves to GameOver, which is not the
line-clearing state). -/
theorem clearingInv_spawn (k : Kind) (g : Game) (h : clearingInv g)
    (hc : g.clearing_lines = []) : clearingInv (spawn_new_piece k g) := by
  have hcs : (spawn_new_piece k g).clearing_lines = g.clearing_lines :=
    (spawn_new_piece_fields k g).2.2.2.2.2.1
  rcases spawn_new_piece_state k g with hs | hs
  · exact clearingInv_of_eq hcs hs h
  · unfold clearingInv
    rw [hcs, hc, hs]
    simp

/-- `finish_clearing_animation` always ends with an empty clearing set:
either it was already empty (no-op) or it is reset to empty before the
spawn, which does not touch it. -/
theorem finish_clearing_animation_lines (k : Kind) (g : Game) :
    (finish_clearing_animation k g).clearing_lines = [] := by
  unfold finish_clearing_animation
  dsimp only
  split
  · rename_i hE
    simpa using hE
  · exact (spawn_new_piece_fields k _).2.2.2.2.2.1

/-- `clear_lines` preserves the C9 invariant: it either changes nothing
or installs a non-empty clearing set together with the line-clearing
state. -/
theorem clearingInv_clear_lines (g : Game) (h : clearingInv g) :
    clearingInv (clear_lines g) := by
  unfold clear_lines
  dsimp only
  split
  · exact h
  · rename_i hE
    unfold clearingInv
    split
    · constructor
      · intro _; rfl
      · intro _
        show detect_full g.grid ≠ []
        simpa using hE
    · constructor
      · intro _; rfl
      · intro _
        show detect_full g.grid ≠ []
        simpa using hE

/-- `lock_piece` preserves the C9 invariant. -/
theorem clearingInv_lock (k : Kind) (g : Game) (h : clearingInv g) :
    clearingInv (lock_piece k g) := by
  unfold lock_piece
  dsimp only
  have h1 : clearingInv { g with grid := place_piece g.grid g.current_piece } :=
    clearingInv_of_eq rfl rfl h
  have h2 : clearingInv (clear_lines { g with grid := place_piece g.grid g.current_piece }) :=
    clearingInv_clear_lines _ h1
  split
  · rename_i hE
    exact clearingInv_spawn k _ h2 (by simpa using hE)
  · exact h2

/-- `move_piece` only moves the current piece. -/
theorem move_piece_fields (dx dy : Int) (g : Game) :
    (move_piece dx dy g).2.clearing_lines = g.clearing_lines ∧
    (move_piece dx dy g).2.state = g.state := by
  unfold move_piece
  dsimp only
  split <;> exact ⟨rfl, rfl⟩

/-- The hard-drop loop only moves the current piece. -/
theorem drop_steps_fields (fuel : Nat) (g : Game) :
    (drop_steps fuel g).2.clearing_lines = g.clearing_lines ∧
    (drop_steps fuel g).2.state = g.state := by
  induction fuel generalizing g with
  | zero => exact ⟨rfl, rfl⟩
  | succ n ih =>
    unfold drop_steps
    dsimp only
    split
    · exact ⟨(ih _).1.trans (move_piece_fields 0 1 g).1,
        (ih _).2.trans (move_piece_fields 0 1 g).2⟩
    · exact ⟨rfl, rfl⟩

/-- `hard_drop` preserves the C9 invariant. -/
theorem clearingInv_hard_drop (k : Kind) (g : Game) (h : clearingInv g) :
    clearingInv (hard_drop k g) := by
  unfold hard_drop
  dsimp only
  exact clearingInv_lock k _
    (clearingInv_of_eq (drop_steps_fields _ g).1 (drop_steps_fields _ g).2 h)

/-- `PlayingState.update` preserves the C9 invariant. -/
theorem clearingInv_playing_update (dt : Int) (k : Kind) (g : Game) (h : clearingInv g) :
    clearingInv (playing_update dt k g) := by
  unfold playing_update
  dsimp only
  split
  · split
    · exact clearingInv_of_eq (move_piece_fields 0 1 _).1 (move_piece_fields 0 1 _).2
        (clearingInv_of_eq rfl rfl h)
    · exact clearingInv_lock k _
        (clearingInv_of_eq (move_piece_fields 0 1 _).1 (move_piece_fields 0 1 _).2
          (clearingInv_of_eq rfl rfl h))
  · exact clearingInv_of_eq rfl rfl h

/-- `LineClearingState.update` preserves the C9 invariant: when the
animation completes, the clearing set is emptied and the state is set to
Playing (even if the spawn failed, see C2). -/
theorem clearingInv_lineClearing_update (dt : Int) (k : Kind) (g : Game) (h : clearingInv g) :
    clearingInv (lineClearing_update dt k g) := by
  unfold lineClearing_update
  dsimp only
  split
  · unfold clearingInv
    constructor
    · intro hne
      exact absurd (finish_clearing_animation_lines k _) hne
    · intro hst
      cases hst
  · exact clearingInv_of_eq rfl rfl h

/-- `TetrisGame.update` preserves the C9 invariant. -/
theorem clearingInv_update (dt : Int) (k : Kind) (g : Game) (h : clearingInv g) :
    clearingInv (update dt k g) := by
  unfold update
  split
  · exact h
  · split
    · exact clearingInv_playing_update dt k g h
    · exact h
    · exact clearingInv_lineClearing_update dt k g h
    · exact h

/-- `reset_game` establishes the C9 invariant unconditionally. -/
theorem clearingInv_reset (k1 k2 : Kind) (g : Game) :
    clearingInv (reset_game k1 k2 g) := by
  unfold reset_game
  dsimp only
  apply clearingInv_spawn
  · unfold clearingInv
    simp
  · rfl

/-- `hold_current_piece` preserves the C9 invariant when no clearing
animation is in progress (which is the only situation in which the
state machine dispatches the hold action). -/
theorem clearingInv_hold (k : Kind) (g : Game) (h : clearingInv g)
    (hc : g.clearing_lines = []) : clearingInv (hold_current_piece k g) := by
  unfold hold_current_piece
  dsimp only
  split
  · exact h
  · split
    · have hsp : clearingInv (spawn_new_piece k
          { g with hold_piece := some (Tetromino.fresh g.current_piece.type) }) :=
        clearingInv_spawn k _ (clearingInv_of_eq rfl rfl h) hc
      exact clearingInv_of_eq rfl rfl hsp
    · exact clearingInv_of_eq rfl rfl h

/-- Setting the state to anything but LineClearing while no clearing
rows are pending satisfies the C9 invariant. -/
theorem clearingInv_set_state (g : Game) (st : GState) (hc : g.clearing_lines = [])
    (hst : st ≠ GState.LineClearing) : clearingInv { g with state := st } := by
  unfold clearingInv
  constructor
  · intro hne
    exact absurd hc hne
  · intro h2
    exact absurd h2 hst

/-- Input dispatch preserves the C9 invariant for every key: movement
and rotation touch only the piece, pause/unpause flip between Playing
and Paused with no pending clearing rows, hard drop ends in a lock,
hold may spawn, restart resets, and the line-clearing state ignores
input. -/
theorem clearingInv_handle_key (key : Key) (k1 k2 : Kind) (g : Game) (h : clearingInv g) :
    clearingInv (handle_key key k1 k2 g) := by
  have hclr : g.state ≠ GState.LineClearing → g.clearing_lines = [] := by
    intro hne
    by_contra hne2
    unfold clearingInv at h
    exact absurd (h.mp hne2) hne
  have hmv : ∀ dx dy : Int, clearingInv (move_piece dx dy g).2 := fun dx dy =>
    clearingInv_of_eq (move_piece_fields dx dy g).1 (move_piece_fields dx dy g).2 h
  unfold handle_key
  cases hst : g.state with
  | Playing =>
    have hc : g.clearing_lines = [] := hclr (by rw [hst]; intro hx; cases hx)
    cases key with
    | left => exact hmv (-1) 0
    | right => exact hmv 1 0
    | down =>
      dsimp only
      split
      · exact clearingInv_of_eq (move_piece_fields 0 1 g).1 (move_piece_fields 0 1 g).2 h
      · exact hmv 0 1
    | up =>
      dsimp only
      exact clearingInv_transport h rfl hst.symm
    | space => exact clearingInv_hard_drop k1 g h
    | c => exact clearingInv_hold k1 g h hc
    | g =>
      dsimp only
      exact clearingInv_transport h rfl hst.symm
    | p => exact clearingInv_set_state g GState.Paused hc (by intro hx; cases hx)
    | r => exact h
  | Paused =>
    have hc : g.clearing_lines = [] := hclr (by rw [hst]; intro hx; cases hx)
    cases key with
    | left => exact h
    | right => exact h
    | down => exact h
    | up => exact h
    | space => exact h
    | c => exact h
    | g => exact h
    | p => exact clearingInv_set_state g GState.Playing hc (by intro hx; cases hx)
    | r => exact h
  | LineClearing => cases key <;> exact h
  | GameOver =>
    cases key with
    | left => exact h
    | right => exact h
    | down => exact h
    | up => exact h
    | space => exact h
    | c => exact h
    | g => exact h
    | p => exact h
    | r => exact clearingInv_reset k1 k2 g

/-- C9: in every session state satisfying it, the equivalence "the set
of clearing row indices is non-empty iff the state machine is in the
line-clearing state" is preserved by clear detection (`clear_lines`),
locking, the frame update (which includes the animation-completion
step), reset, and every dispatched input action (pause, unpause, hold,
movement, rotation, drops, restart). -/
theorem clearing_lines_state_invariant (g : Game) (h : clearingInv g)
    (k1 k2 : Kind) (dt : Int) (key : Key) :
    clearingInv (clear_lines g) ∧
    clearingInv (lock_piece k1 g) ∧
    clearingInv (update dt k1 g) ∧
    clearingInv (reset_game k1 k2 g) ∧
    clearingInv (handle_key key k1 k2 g) :=
  ⟨clearingInv_clear_lines g h, clearingInv_lock k1 g h, clearingInv_update dt k1 g h,
   clearingInv_reset k1 k2 g, clearingInv_handle_key key k1 k2 g h⟩

/-- Witness for C9 at the freshly initialised session, with a pause
keypress as the dispatched action. -/
theorem clearing_lines_state_invariant_witness :
    clearingInv (clear_lines (initGame Kind.I Kind.O)) ∧
    clearingInv (lock_piece Kind.T (initGame Kind.I Kind.O)) ∧
    clearingInv (update 500 Kind.T (initGame Kind.I Kind.O)) ∧
    clearingInv (reset_game Kind.T Kind.Z (initGame Kind.I Kind.O)) ∧
    clearingInv (handle_key Key.p Kind.T Kind.Z (initGame Kind.I Kind.O)) :=
  clearing_lines_state_invariant (initGame Kind.I Kind.O) (by decide) Kind.T Kind.Z 500 Key.p
